import Mathlib

/-!
Verification of the core business logic of the KJ Academy membership
application (a single-file membership / payment-reminder tool).

The definitions below are a shallow embedding of the program's pure logic:

* calendar arithmetic models Python `datetime.date` by its proleptic
  Gregorian ordinal (`date.toordinal`, day 1 = 0001-01-01), so a date is an
  `Int` ordinal and `timedelta(days = n)` is `+ n`;
* `calculate_next_due_date` embeds `DatabaseManager.calculate_next_due_date`;
* `get_pending_reminders` embeds `ReminderScheduler.get_pending_reminders`
  (the SQL `ORDER BY name` is modelled by sorting the member list by name);
* `format_phone_number` / `validate_phone_number` embed the utility
  functions of the same names;
* `send_whatsapp_url` / `format_message` embed the `MessageManager`
  methods, with Python's `str.format` modelled for simple `{name}` fields
  and `{{` / `}}` brace escapes, and `urllib.parse.quote` modelled per byte
  of the UTF-8 encoding with the default safe set;
* `delete_member` and `get_active_subscriptions` embed the corresponding
  `DatabaseManager` methods over an explicit in-memory table state.
-/

namespace KJAcademy

/-! ### Calendar arithmetic: embedding of Python `datetime.date` -/

/-- Gregorian leap-year rule, as in CPython `datetime._is_leap`. -/
def isLeapYear (y : Nat) : Bool :=
  y % 4 == 0 && (y % 100 != 0 || y % 400 == 0)

/-- Days in a month, as in CPython `datetime._days_in_month`. -/
def daysInMonth (y m : Nat) : Nat :=
  if m = 2 then (if isLeapYear y then 29 else 28)
  else if m = 4 ∨ m = 6 ∨ m = 9 ∨ m = 11 then 30
  else 31

/-- Days in year `y` before the first day of month `m`
(CPython `datetime._days_before_month`). -/
def daysBeforeMonth (y m : Nat) : Nat :=
  (List.range (m - 1)).foldl (fun acc i => acc + daysInMonth y (i + 1)) 0

/-- Days before January 1 of year `y`
(CPython `datetime._days_before_year`). -/
def daysBeforeYear (y : Nat) : Nat :=
  (y - 1) * 365 + (y - 1) / 4 - (y - 1) / 100 + (y - 1) / 400

/-- Proleptic Gregorian ordinal of the date `y-m-d`
(CPython `date.toordinal`; ordinal 1 is 0001-01-01). -/
def toOrdinal (y m d : Nat) : Int :=
  ((daysBeforeYear y + daysBeforeMonth y m + d : Nat) : Int)

/-- Scan at most `k` further months to locate the month containing
day-of-year remainder `rem` (0-based). Returns (month, day). -/
def findMonth (y : Nat) : Nat → Nat → Nat → Nat × Nat
  | 0, m, rem => (m, rem + 1)
  | k + 1, m, rem =>
    if rem < daysInMonth y m then (m, rem + 1)
    else findMonth y k (m + 1) (rem - daysInMonth y m)

/-- Inverse of `toOrdinal` (CPython `date.fromordinal` / `_ord2ymd`). -/
def ord2ymd (o : Int) : Nat × Nat × Nat :=
  let n0 := o.toNat - 1
  let n400 := n0 / 146097
  let r400 := n0 % 146097
  let n100 := r400 / 36524
  let r100 := r400 % 36524
  let n4 := r100 / 1461
  let r4 := r100 % 1461
  let n1 := r4 / 365
  let n := r4 % 365
  let year := n400 * 400 + n100 * 100 + n4 * 4 + n1 + 1
  if n1 = 4 ∨ n100 = 4 then (year - 1, 12, 31)
  else
    let md := findMonth year 11 1 n
    (year, md.1, md.2)

/-- Left-pad a decimal string with zeros to width `w`. -/
def padZero (w : Nat) (s : String) : String :=
  String.mk (List.replicate (w - s.length) '0') ++ s

/-- Embedding of `date.strftime('%d-%m-%Y')` on an ordinal. -/
def strftimeDMY (o : Int) : String :=
  let ymd := ord2ymd o
  padZero 2 (toString ymd.2.2) ++ "-" ++ padZero 2 (toString ymd.2.1) ++
    "-" ++ padZero 4 (toString ymd.1)

/-! ### Phone-number utilities (`format_phone_number`, `validate_phone_number`) -/

/-- The digit characters of `s`, in order: embedding of
`re.sub(r'\D', '', s)` (digits taken as ASCII `0`-`9`). -/
def digitsOf (s : String) : List Char := s.data.filter Char.isDigit

/-- Embedding of the source's `format_phone_number`. -/
def format_phone_number (phone : String) : String :=
  let p := phone.data.filter Char.isDigit
  if ['9', '1'].isPrefixOf p ∧ p.length = 12 then String.mk ('+' :: p)
  else if p.length = 10 then String.mk ('+' :: '9' :: '1' :: p)
  else if p.length > 10 then String.mk ('+' :: p)
  else String.mk p

/-- Embedding of the source's `validate_phone_number`. Note the third
branch tests the digit count of the input but the literal prefix of the
raw input. -/
def validate_phone_number (phone : String) : Bool :=
  let digits_only := phone.data.filter Char.isDigit
  if digits_only.length = 10 then true
  else if digits_only.length = 12 ∧ ['9', '1'].isPrefixOf digits_only then true
  else if digits_only.length = 13 ∧ ['+', '9', '1'].isPrefixOf phone.data then true
  else false

/-- The validation rule exactly as the specification words it: 10 digits,
or 12 digits starting with 91, or a *13-character input* starting with the
literal prefix `+91`. Stated from the spec's words, to be compared against
`validate_phone_number`. -/
def claimedValidatePhone (phone : String) : Prop :=
  (phone.data.filter Char.isDigit).length = 10 ∨
  ((phone.data.filter Char.isDigit).length = 12 ∧
    ['9', '1'].isPrefixOf (phone.data.filter Char.isDigit)) ∨
  (phone.length = 13 ∧ ['+', '9', '1'].isPrefixOf phone.data)

instance (phone : String) : Decidable (claimedValidatePhone phone) := by
  unfold claimedValidatePhone
  infer_instance

/-! ### Members and the due-date calculator -/

/-- A row of the `members` table (the columns the core logic reads).
`payment_date` is a date ordinal; `amount` is modelled as an integer. -/
structure Member where
  id : Nat
  name : String
  phone : String
  email : String
  membership_type : String
  amount : Int
  payment_date : Int
  reminder_days : Int
deriving DecidableEq

/-- Embedding of `DatabaseManager.calculate_next_due_date`. -/
def calculate_next_due_date (payment_date : Int) (membership_type : String) : Int :=
  if membership_type = "Monthly Subscriber" then payment_date + 30
  else if membership_type = "Quarterly" then payment_date + 90
  else if membership_type = "Half Yearly" then payment_date + 180
  else if membership_type = "Annual" then payment_date + 365
  else payment_date + 30

/-- The membership tiers of the data model (the registration form offers
exactly these four). -/
inductive Tier
  | monthly
  | quarterly
  | halfYearly
  | annual

/-- The `membership_type` string the application stores for each tier. -/
def tierString : Tier → String
  | .monthly => "Monthly Subscriber"
  | .quarterly => "Quarterly"
  | .halfYearly => "Half Yearly"
  | .annual => "Annual"

/-- The renewal offset in days the specification assigns to each tier. -/
def tierOffsetDays : Tier → Int
  | .monthly => 30
  | .quarterly => 90
  | .halfYearly => 180
  | .annual => 365

/-! ### Reminder scheduler (`ReminderScheduler.get_pending_reminders`) -/

/-- One entry of the pending-reminder list (the dict the source builds). -/
structure Reminder where
  member_id : Nat
  member_name : String
  phone : String
  email : String
  membership_type : String
  amount : Int
  payment_date : Int
  next_due_date : Int
  days_remaining : Int
  reminder_type : String
  reminder_days : Int
deriving DecidableEq

/-- The quantity `days_remaining = (next_due_date - today).days` for a member. -/
def daysRemaining (today : Int) (m : Member) : Int :=
  calculate_next_due_date m.payment_date m.membership_type - today

/-- The source's `should_remind` flag: overdue, or within the member's
reminder window. -/
def shouldRemind (today : Int) (m : Member) : Bool :=
  daysRemaining today m < 0 || daysRemaining today m ≤ m.reminder_days

/-- The source's `reminder_type` classification. -/
def reminderTypeFor (today : Int) (m : Member) : String :=
  if daysRemaining today m < 0 then "overdue_reminder" else "payment_reminder"

/-- The pending-reminder entry built for a member. -/
def mkReminder (today : Int) (m : Member) : Reminder :=
  { member_id := m.id
    member_name := m.name
    phone := m.phone
    email := m.email
    membership_type := m.membership_type
    amount := m.amount
    payment_date := m.payment_date
    next_due_date := calculate_next_due_date m.payment_date m.membership_type
    days_remaining := daysRemaining today m
    reminder_type := reminderTypeFor today m
    reminder_days := m.reminder_days }

/-- Name order on members, modelling the SQL `ORDER BY name`. -/
def byName (a b : Member) : Prop := a.name ≤ b.name

instance : DecidableRel byName := fun a b => by
  unfold byName
  infer_instance

instance : IsTotal Member byName := ⟨fun a b => le_total a.name b.name⟩

instance : IsTrans Member byName := ⟨fun _ _ _ h h' => le_trans h h'⟩

/-- Embedding of `ReminderScheduler.get_pending_reminders`: the members
table read in name order, each member classified, the qualifying ones
collected in order. -/
def get_pending_reminders (today : Int) (members : List Member) : List Reminder :=
  (List.insertionSort byName members).filterMap fun m =>
    if shouldRemind today m then some (mkReminder today m) else none

/-! ### Message manager (`MessageManager.send_whatsapp_url`, `format_message`) -/

/-- Embedding of Python `s.replace(c, '')` for a one-character pattern:
every occurrence of `c` is removed. -/
def removeAll (c : Char) (s : String) : String :=
  String.mk (s.data.filter fun x => x ≠ c)

/-- Uppercase hexadecimal digit for `n < 16`. -/
def hexDigitChar (n : Nat) : Char :=
  if n < 10 then Char.ofNat (48 + n) else Char.ofNat (55 + n)

/-- UTF-8 encoding of a character's code point, as a list of byte values. -/
def utf8Bytes (c : Char) : List Nat :=
  let n := c.toNat
  if n < 128 then [n]
  else if n < 2048 then [192 + n / 64, 128 + n % 64]
  else if n < 65536 then [224 + n / 4096, 128 + (n / 64) % 64, 128 + n % 64]
  else [240 + n / 262144, 128 + (n / 4096) % 64, 128 + (n / 64) % 64, 128 + n % 64]

/-- Characters `urllib.parse.quote` leaves unescaped with its default
arguments: ASCII letters and digits, `_.-~`, and the default safe set `/`. -/
def isSafeChar (c : Char) : Bool :=
  c.isAlpha || c.isDigit || c == '_' || c == '.' || c == '-' || c == '~' || c == '/'

/-- Percent-escape of one byte value, uppercase hex. -/
def pctByte (n : Nat) : String :=
  String.mk ['%', hexDigitChar (n / 16 % 16), hexDigitChar (n % 16)]

/-- Per-character action of `urllib.parse.quote`: safe characters pass
through, every other character has each of its UTF-8 bytes escaped. -/
def quoteChar (c : Char) : String :=
  if isSafeChar c then String.singleton c
  else String.join ((utf8Bytes c).map pctByte)

/-- Embedding of `urllib.parse.quote` with default arguments. -/
def quote (s : String) : String :=
  String.join (s.data.map quoteChar)

/-- Embedding of `MessageManager.send_whatsapp_url`: the phone with `+`,
spaces and dashes removed, the message percent-encoded, spliced into the
`wa.me` deep-link. -/
def send_whatsapp_url (phone message : String) : String :=
  let formatted_phone := removeAll '-' (removeAll ' ' (removeAll '+' phone))
  let encoded_message := quote message
  "https://wa.me/" ++ formatted_phone ++ "?text=" ++ encoded_message

/-- A token of a parsed `str.format` template: a literal character or a
`{name}` replacement field. -/
inductive Tok where
  | lit : Char → Tok
  | field : String → Tok
deriving DecidableEq

mutual

/-- Tokenizer for Python `str.format` templates, restricted to simple
named fields `{name}` and the brace escapes `{{` / `}}` (no positional
fields, conversions or format specs — none appear in this app's
templates). An unmatched or stray brace is a formatting error (`none`),
as `str.format` raises `ValueError` there. -/
def tokenize : List Char → Option (List Tok)
  | [] => some []
  | '{' :: '{' :: rest => (tokenize rest).map (Tok.lit '{' :: ·)
  | '{' :: rest => tokenizeField [] rest
  | '}' :: '}' :: rest => (tokenize rest).map (Tok.lit '}' :: ·)
  | '}' :: _ => none
  | c :: rest => (tokenize rest).map (Tok.lit c :: ·)

/-- Reads a field name up to the closing `}`; a nested `{` or the end of
the template is an error. -/
def tokenizeField (acc : List Char) : List Char → Option (List Tok)
  | [] => none
  | '}' :: rest => (tokenize rest).map (Tok.field (String.mk acc) :: ·)
  | '{' :: _ => none
  | c :: rest => tokenizeField (acc ++ [c]) rest

end

/-- Renders a token list against keyword arguments `env`; a field whose
name is not a key of `env` is a formatting error (`KeyError`), `none`. -/
def renderToks (env : List (String × String)) : List Tok → Option String
  | [] => some ""
  | Tok.lit c :: rest => (renderToks env rest).map (String.singleton c ++ ·)
  | Tok.field n :: rest =>
    match env.lookup n with
    | none => none
    | some v => (renderToks env rest).map (v ++ ·)

/-- Embedding of `template.format(**env)`: tokenize, then substitute. -/
def formatMap (env : List (String × String)) (template : String) : Option String :=
  (tokenize template.data).bind (renderToks env)

/-- The member fields `MessageManager.format_message` reads from the
record it is given (`amount` modelled as an integer). -/
structure MemberData where
  member_name : String
  amount : Int
  payment_date : Int
  membership_type : String

/-- The keyword arguments `format_message` passes to `str.format`: the
member's name and amount, the computed due date rendered `%d-%m-%Y`, the
membership type, the computed overdue-day count, and the two constants
`court_name` and `phone`. -/
def formatEnv (today : Int) (md : MemberData) : List (String × String) :=
  let payment_date := md.payment_date
  let membership_type := md.membership_type
  let due_date :=
    if membership_type = "Monthly Subscriber" then payment_date + 30
    else if membership_type = "Quarterly" then payment_date + 90
    else if membership_type = "Half Yearly" then payment_date + 180
    else if membership_type = "Annual" then payment_date + 365
    else payment_date + 30
  let overdue_days := if today > due_date then today - due_date else 0
  [("member_name", md.member_name),
   ("amount", toString md.amount),
   ("due_date", strftimeDMY due_date),
   ("membership_type", membership_type),
   ("overdue_days", toString overdue_days),
   ("court_name", "KJ Badminton Academy"),
   ("phone", "+91-9876543210")]

/-- Embedding of `MessageManager.format_message`: `none` models the
uncaught formatting exception. -/
def format_message (today : Int) (template : String) (md : MemberData) : Option String :=
  formatMap (formatEnv today md) template

/-- The replacement-field names a token list references. -/
def fieldNames (toks : List Tok) : List String :=
  toks.filterMap fun t =>
    match t with
    | Tok.field n => some n
    | _ => none

/-- The placeholder names `format_message` actually supplies. -/
def supportedKeys : List String :=
  ["member_name", "amount", "due_date", "membership_type", "overdue_days",
   "court_name", "phone"]

/-- The placeholder set as the specification states it (five names). -/
def claimedKeys : List String :=
  ["member_name", "amount", "due_date", "overdue_days", "phone"]

/-- Holds when `s` contains no brace character (hence no remaining placeholder token). -/
def noBraces (s : String) : Bool :=
  s.data.all fun c => !(c == '{' || c == '}')

/-! ### Database state (`delete_member`, `get_active_subscriptions`) -/

/-- A row of `payment_history`. -/
structure PaymentRow where
  id : Nat
  member_id : Nat
  amount : Int
  payment_date : Int
  payment_method : String
  notes : String

/-- A row of `reminder_logs`. -/
structure ReminderLogRow where
  id : Nat
  member_id : Nat
  reminder_type : String
  message : String
  success : Bool

/-- A row of `member_checkins` (the columns the delete touches). -/
structure CheckinRow where
  id : Nat
  member_id : Nat
  member_name : String
  phone : String

/-- The tables of the store that `delete_member` touches. -/
structure DBState where
  members : List Member
  payment_history : List PaymentRow
  reminder_logs : List ReminderLogRow
  member_checkins : List CheckinRow

/-- Embedding of `DatabaseManager.delete_member`: each `DELETE ... WHERE
member_id = ?` keeps exactly the rows of a different member, then the
member row itself is removed. -/
def delete_member (member_id : Nat) (s : DBState) : DBState :=
  { members := s.members.filter fun m => m.id ≠ member_id
    payment_history := s.payment_history.filter fun r => r.member_id ≠ member_id
    reminder_logs := s.reminder_logs.filter fun r => r.member_id ≠ member_id
    member_checkins := s.member_checkins.filter fun r => r.member_id ≠ member_id }

/-- The `WHERE date(m.payment_date, '+30 days') >= date(today)` predicate
of `get_active_subscriptions`, on date ordinals. -/
def activeWindowPred (today : Int) (m : Member) : Bool :=
  today ≤ m.payment_date + 30

/-- Embedding of `DatabaseManager.get_active_subscriptions`: the count of
members passing the fixed 30-day window test. -/
def get_active_subscriptions (today : Int) (members : List Member) : Nat :=
  (members.filter (activeWindowPred today)).length

/-! ### Concrete records used to evaluate the definitions -/

/-- The specification's worked example: paid 2024-01-01, Monthly tier,
30-day reminder lead. -/
def exampleMember : Member :=
  { id := 1
    name := "Example"
    phone := "+919876543210"
    email := ""
    membership_type := "Monthly Subscriber"
    amount := 500
    payment_date := toOrdinal 2024 1 1
    reminder_days := 30 }

/-- An Annual-tier member who last paid at ordinal 0. -/
def annualMember : Member :=
  { id := 2
    name := "Anil"
    phone := "+919876543211"
    email := ""
    membership_type := "Annual"
    amount := 5000
    payment_date := 0
    reminder_days := 30 }

/-- A member record for exercising `format_message`. -/
def exampleData : MemberData :=
  { member_name := "Alice"
    amount := 500
    payment_date := toOrdinal 2024 1 1
    membership_type := "Monthly Subscriber" }

/-- A member record whose name itself contains a `{x}` token. -/
def braceData : MemberData :=
  { member_name := String.mk ['{', 'x', '}']
    amount := 500
    payment_date := toOrdinal 2024 1 1
    membership_type := "Monthly Subscriber" }

/-- The branch structure of `format_phone_number` at the level of
character lists (a proof device: `format_phone_number` is exactly this,
wrapped in `String.mk`). -/
def phoneCore (d : List Char) : List Char :=
  if ['9', '1'].isPrefixOf d ∧ d.length = 12 then '+' :: d
  else if d.length = 10 then '+' :: '9' :: '1' :: d
  else if d.length > 10 then '+' :: d
  else d

/-! ### Helper lemmas -/

theorem data_mk (l : List Char) : (String.mk l).data = l := rfl

theorem data_append (a b : String) : (a ++ b).data = a.data ++ b.data := rfl

/-- Rows kept by a `≠ v` filter never satisfy a subsequent `= v` filter. -/
theorem filter_ne_then_eq {α : Type} (f : α → Nat) (v : Nat) (l : List α) :
    ((l.filter fun a => f a ≠ v).filter fun a => f a = v) = [] := by
  induction l with
  | nil => rfl
  | cons a t ih =>
    by_cases h : f a = v <;> simp [List.filter, h, ih]

/-! ### Claim theorems -/

/-- C1: for every payment date and tier, the due-date calculator returns
the date plus the fixed tier offset (30 / 90 / 180 / 365 days for
Monthly / Quarterly / HalfYearly / Annual), and any unrecognized tier
string defaults to 30 days; the function is total. -/
theorem due_date_tier_offsets (d : Int) :
    (∀ t : Tier, calculate_next_due_date d (tierString t) = d + tierOffsetDays t) ∧
    (∀ s : String,
      s ∉ ["Monthly Subscriber", "Quarterly", "Half Yearly", "Annual"] →
      calculate_next_due_date d s = d + 30) := by
  constructor
  · intro t
    cases t <;> rfl
  · intro s hs
    simp only [List.mem_cons, List.not_mem_nil, or_false, not_or] at hs
    obtain ⟨h1, h2, h3, h4⟩ := hs
    simp [calculate_next_due_date, h1, h2, h3, h4]

/-- Witness for C1 at concrete inputs: the Annual tier offset at date 0,
and the unrecognized tier string `"Premium"`. -/
theorem due_date_tier_offsets_witness :
    calculate_next_due_date 0 (tierString Tier.annual) = 0 + tierOffsetDays Tier.annual ∧
    calculate_next_due_date 0 "Premium" = 0 + 30 :=
  ⟨(due_date_tier_offsets 0).1 Tier.annual,
   (due_date_tier_offsets 0).2 "Premium" (by decide)⟩

/-- C3 counterexample: for the spec's worked example (paid 2024-01-01,
Monthly, today 2024-01-20) the code computes
`days_remaining = (2024-01-31) - (2024-01-20) = 11`, not 10. -/
theorem monthly_example_cex :
    daysRemaining (toOrdinal 2024 1 20) exampleMember = 11 ∧
    daysRemaining (toOrdinal 2024 1 20) exampleMember ≠ 10 := by
  constructor <;> decide

/-- C3 amended: for the worked example the classifier computes
`days_remaining = 11` (due 2024-01-31), and classifies the member
due-soon (`payment_reminder`, since `0 ≤ 11 ≤ 30`), so the member appears
in the pending list. -/
theorem monthly_example_amended :
    daysRemaining (toOrdinal 2024 1 20) exampleMember = 11 ∧
    calculate_next_due_date (toOrdinal 2024 1 1) "Monthly Subscriber" =
      toOrdinal 2024 1 31 ∧
    0 ≤ daysRemaining (toOrdinal 2024 1 20) exampleMember ∧
    daysRemaining (toOrdinal 2024 1 20) exampleMember ≤ exampleMember.reminder_days ∧
    reminderTypeFor (toOrdinal 2024 1 20) exampleMember = "payment_reminder" ∧
    get_pending_reminders (toOrdinal 2024 1 20) [exampleMember] =
      [mkReminder (toOrdinal 2024 1 20) exampleMember] := by
  refine ⟨by decide, by decide, by decide, by decide, by decide, by decide⟩

/-- C4: phone normalization strips non-digits, then prefixes `+` to a
12-digit string starting `91`, `+91` to a 10-digit string, `+` to any
longer string, and otherwise returns the digit string unchanged; in
particular on the two examples of the specification. -/
theorem phone_normalization_rule (p : String) :
    format_phone_number p =
      (if ['9', '1'].isPrefixOf (digitsOf p) ∧ (digitsOf p).length = 12 then
        String.mk ('+' :: digitsOf p)
      else if (digitsOf p).length = 10 then
        String.mk ('+' :: '9' :: '1' :: digitsOf p)
      else if (digitsOf p).length > 10 then String.mk ('+' :: digitsOf p)
      else String.mk (digitsOf p)) ∧
    format_phone_number "9876543210" = "+919876543210" ∧
    format_phone_number "12345" = "12345" :=
  ⟨rfl, by decide, by decide⟩

/-- C5 counterexample: the input `"+9112345678901"` has 14 characters and
13 digits; the code validates it (13 digits, raw input starts `+91`), but
the claim's rule (a *13-character* input starting `+91`) rejects it. -/
theorem phone_validation_claim_cex :
    validate_phone_number "+9112345678901" = true ∧
    ¬ claimedValidatePhone "+9112345678901" := by
  constructor <;> decide

/-- C5 amended: validation accepts exactly 10 digits, or 12 digits
starting `91`, or *13 digits* with the raw input starting with the
literal prefix `+91`; everything else is invalid. The two examples of the
specification hold. -/
theorem phone_validation_amended (p : String) :
    (validate_phone_number p = true ↔
      ((p.data.filter Char.isDigit).length = 10 ∨
       ((p.data.filter Char.isDigit).length = 12 ∧
         ['9', '1'].isPrefixOf (p.data.filter Char.isDigit)) ∨
       ((p.data.filter Char.isDigit).length = 13 ∧
         ['+', '9', '1'].isPrefixOf p.data))) ∧
    validate_phone_number "9876543210" = true ∧
    validate_phone_number "12345" = false := by
  refine ⟨?_, by decide, by decide⟩
  simp only [validate_phone_number]
  split_ifs with h1 h2 h3 <;> simp_all

/-- C8: after deleting a member, no payment-history row, reminder-log row
or check-in row of that member remains, and the member row itself is
gone. -/
theorem delete_member_no_orphans (mid : Nat) (s : DBState) :
    ((delete_member mid s).payment_history.filter fun r => r.member_id = mid) = [] ∧
    ((delete_member mid s).reminder_logs.filter fun r => r.member_id = mid) = [] ∧
    ((delete_member mid s).member_checkins.filter fun r => r.member_id = mid) = [] ∧
    ((delete_member mid s).members.filter fun m => m.id = mid) = [] := by
  refine ⟨?_, ?_, ?_, ?_⟩
  · exact filter_ne_then_eq (fun r => r.member_id) mid s.payment_history
  · exact filter_ne_then_eq (fun r => r.member_id) mid s.reminder_logs
  · exact filter_ne_then_eq (fun r => r.member_id) mid s.member_checkins
  · exact filter_ne_then_eq (fun m => m.id) mid s.members

/-- C10: the dashboard's active-subscription count classifies every
member by the fixed 30-day window `payment_date + 30 ≥ today`; the
membership tier is never consulted, so a member of a longer tier (here
Annual) is counted as not active even while today is before the
tier-based due date. -/
theorem active_subscriptions_fixed_window (today : Int) (members : List Member)
    (m : Member)
    (_htier : m.membership_type = "Annual")
    (hwindow : m.payment_date + 30 < today)
    (_hdue : today ≤ calculate_next_due_date m.payment_date m.membership_type) :
    get_active_subscriptions today members =
      members.countP (fun x => decide (today ≤ x.payment_date + 30)) ∧
    (∀ (x : Member) (t t' : String),
      activeWindowPred today { x with membership_type := t } =
        activeWindowPred today { x with membership_type := t' }) ∧
    activeWindowPred today m = false := by
  refine ⟨?_, fun x t t' => rfl, ?_⟩
  · rw [List.countP_eq_length_filter]
    rfl
  · simp only [activeWindowPred, decide_eq_false_iff_not, not_le]
    omega

/-- Witness for C10: an Annual member who paid at ordinal 0, evaluated at
today = 100 (past the 30-day window, before the 365-day due date). -/
theorem active_subscriptions_fixed_window_witness :
    get_active_subscriptions 100 [annualMember] =
      [annualMember].countP (fun x => decide ((100 : Int) ≤ x.payment_date + 30)) ∧
    (∀ (x : Member) (t t' : String),
      activeWindowPred 100 { x with membership_type := t } =
        activeWindowPred 100 { x with membership_type := t' }) ∧
    activeWindowPred 100 annualMember = false :=
  active_subscriptions_fixed_window 100 [annualMember] annualMember (by decide)
    (by decide) (by decide)

theorem format_phone_number_eq_core (p : String) :
    format_phone_number p = String.mk (phoneCore (p.data.filter Char.isDigit)) := by
  simp only [format_phone_number, phoneCore]
  split_ifs <;> rfl

theorem filter_isDigit_plus (l : List Char) :
    ('+' :: l).filter Char.isDigit = l.filter Char.isDigit := by
  simp [List.filter]

theorem phoneCore_idem (d : List Char) (hd : d.filter Char.isDigit = d) :
    phoneCore (List.filter Char.isDigit (phoneCore d)) = phoneCore d := by
  by_cases c1 : (['9', '1'].isPrefixOf d = true) ∧ d.length = 12
  · have h : phoneCore d = '+' :: d := by unfold phoneCore; rw [if_pos c1]
    rw [h, filter_isDigit_plus, hd]
    exact h
  · by_cases c2 : d.length = 10
    · have h : phoneCore d = '+' :: '9' :: '1' :: d := by
        unfold phoneCore; rw [if_neg c1, if_pos c2]
      rw [h]
      have hf : List.filter Char.isDigit ('+' :: '9' :: '1' :: d) = '9' :: '1' :: d := by
        rw [filter_isDigit_plus]
        simp [List.filter_cons, hd]
      rw [hf]
      have c1' : (['9', '1'].isPrefixOf ('9' :: '1' :: d) = true) ∧
          ('9' :: '1' :: d).length = 12 := by
        constructor
        · simp [List.isPrefixOf]
        · simp [c2]
      unfold phoneCore
      rw [if_pos c1']
    · by_cases c3 : d.length > 10
      · have h : phoneCore d = '+' :: d := by
          unfold phoneCore; rw [if_neg c1, if_neg c2, if_pos c3]
        rw [h, filter_isDigit_plus, hd]
        exact h
      · have h : phoneCore d = d := by
          unfold phoneCore; rw [if_neg c1, if_neg c2, if_neg c3]
        rw [h, hd]
        exact h

/-- C9: phone normalization is idempotent: normalizing an
already-normalized phone string returns it unchanged. -/
theorem phone_normalization_idempotent (p : String) :
    format_phone_number (format_phone_number p) = format_phone_number p := by
  rw [format_phone_number_eq_core p, format_phone_number_eq_core, data_mk]
  congr 1
  exact phoneCore_idem _ (by simp [List.filter_filter])

/-- C6 counterexample: for the phone `"(9)"` the generated link keeps the
parentheses (the code removes only `+`, spaces and dashes), so the digits
part of the URL is not all-numeric as the claim states. -/
theorem whatsapp_url_claim_cex :
    send_whatsapp_url "(9)" "hi" = "https://wa.me/(9)?text=hi" ∧
    send_whatsapp_url "(9)" "hi" ≠
      "https://wa.me/" ++ String.mk (digitsOf "(9)") ++ "?text=" ++ quote "hi" := by
  constructor <;> decide

/-- C6 amended: the link generator returns exactly
`https://wa.me/<phone with +, spaces and dashes removed>?text=<message
percent-encoded>`; characters other than `+`, space and dash survive into
the digits part. -/
theorem whatsapp_url_amended (phone message : String) :
    send_whatsapp_url phone message =
      "https://wa.me/" ++
        String.mk (phone.data.filter fun c => ¬(c = '+' ∨ c = ' ' ∨ c = '-')) ++
        "?text=" ++ quote message := by
  simp only [send_whatsapp_url, removeAll, data_mk]
  congr 3
  rw [List.filter_filter, List.filter_filter]
  congr 1
  apply List.filter_congr
  intro x _
  by_cases h1 : x = '+' <;> by_cases h2 : x = ' ' <;> by_cases h3 : x = '-' <;>
    simp [h1, h2, h3]

/-- A `filterMap` of a pairwise-related list is pairwise related, when the
function transports the relation. -/
theorem pairwise_filterMap_of {α β : Type} {R : α → α → Prop} {S : β → β → Prop}
    (f : α → Option β)
    (H : ∀ a b, R a b → ∀ c, f a = some c → ∀ d, f b = some d → S c d) :
    ∀ {l : List α}, List.Pairwise R l → List.Pairwise S (l.filterMap f) := by
  intro l hl
  induction hl with
  | nil => simp
  | @cons a l ha _hp ih =>
    cases hfa : f a with
    | none => simpa [List.filterMap_cons, hfa] using ih
    | some c =>
      simp only [List.filterMap_cons, hfa]
      refine List.Pairwise.cons ?_ ih
      intro d hd
      obtain ⟨b, hb, hfb⟩ := List.mem_filterMap.mp hd
      exact H a b (ha b hb) c hfa d hfb

/-- C2: a reminder entry is in the pending list iff it is the entry built
for some member whose `days_remaining` is negative (overdue) or satisfies
`0 ≤ days_remaining ≤ reminder_days` (due-soon); every other member is
excluded, and the pending list is ordered by member name. -/
theorem pending_reminders_spec (today : Int) (members : List Member) (r : Reminder) :
    (r ∈ get_pending_reminders today members ↔
      ∃ m ∈ members, r = mkReminder today m ∧
        (daysRemaining today m < 0 ∨
          (0 ≤ daysRemaining today m ∧ daysRemaining today m ≤ m.reminder_days))) ∧
    List.Sorted (fun a b => a.member_name ≤ b.member_name)
      (get_pending_reminders today members) := by
  constructor
  · simp only [get_pending_reminders, List.mem_filterMap, List.mem_insertionSort]
    constructor
    · rintro ⟨m, hm, hf⟩
      by_cases h : shouldRemind today m = true
      · rw [if_pos h] at hf
        refine ⟨m, hm, (Option.some.inj hf).symm, ?_⟩
        unfold shouldRemind at h
        simp only [Bool.or_eq_true, decide_eq_true_eq] at h
        omega
      · rw [if_neg h] at hf
        exact absurd hf (by simp)
    · rintro ⟨m, hm, rfl, hcond⟩
      refine ⟨m, hm, ?_⟩
      have h : shouldRemind today m = true := by
        unfold shouldRemind
        simp only [Bool.or_eq_true, decide_eq_true_eq]
        omega
      rw [if_pos h]
  · have hs : List.Pairwise byName (List.insertionSort byName members) :=
      List.sorted_insertionSort byName members
    apply pairwise_filterMap_of _ ?_ hs
    intro a b hab c hc d hd
    by_cases ha : shouldRemind today a = true
    · rw [if_pos ha] at hc
      by_cases hb : shouldRemind today b = true
      · rw [if_pos hb] at hd
        obtain rfl := Option.some.inj hc
        obtain rfl := Option.some.inj hd
        exact hab
      · rw [if_neg hb] at hd
        exact absurd hd (by simp)
    · rw [if_neg ha] at hc
      exact absurd hc (by simp)

theorem fieldNames_cons_lit (c : Char) (rest : List Tok) :
    fieldNames (Tok.lit c :: rest) = fieldNames rest := rfl

theorem fieldNames_cons_field (n : String) (rest : List Tok) :
    fieldNames (Tok.field n :: rest) = n :: fieldNames rest := rfl

theorem lookup_isSome_iff {l : List (String × String)} {n : String} :
    (l.lookup n).isSome = true ↔ n ∈ l.map Prod.fst := by
  induction l with
  | nil => simp [List.lookup]
  | cons p t ih =>
    obtain ⟨k, v⟩ := p
    by_cases h : n = k
    · subst h
      simp [List.lookup]
    · have hb : (n == k) = false := by simp [h]
      simp [List.lookup, hb, ih, h]

theorem lookup_mem {l : List (String × String)} {n v : String}
    (h : l.lookup n = some v) : (n, v) ∈ l := by
  induction l with
  | nil => simp [List.lookup] at h
  | cons p t ih =>
    obtain ⟨k, w⟩ := p
    by_cases hk : n = k
    · subst hk
      simp [List.lookup] at h
      simp [h]
    · have hb : (n == k) = false := by simp [hk]
      simp only [List.lookup, hb] at h
      exact List.mem_cons_of_mem _ (ih h)

theorem noBraces_append (a b : String) :
    noBraces (a ++ b) = (noBraces a && noBraces b) := by
  simp [noBraces, data_append, List.all_append]

theorem renderToks_isSome (env : List (String × String)) (toks : List Tok) :
    (renderToks env toks).isSome = true ↔
      ∀ n ∈ fieldNames toks, (env.lookup n).isSome = true := by
  induction toks with
  | nil => simp [renderToks, fieldNames]
  | cons t rest ih =>
    cases t with
    | lit c => simp [renderToks, fieldNames_cons_lit, ih]
    | field n =>
      cases h : env.lookup n with
      | none =>
        have hl : renderToks env (Tok.field n :: rest) = none := by
          simp [renderToks, h]
        rw [hl, fieldNames_cons_field]
        constructor
        · intro hc
          exact absurd hc (by simp)
        · intro hall
          have hn := hall n (by simp)
          rw [h] at hn
          exact absurd hn (by simp)
      | some v =>
        have hl : renderToks env (Tok.field n :: rest) =
            (renderToks env rest).map (fun r => v ++ r) := by
          simp [renderToks, h]
        rw [hl, fieldNames_cons_field]
        have hmap : (Option.map (fun r : String => v ++ r) (renderToks env rest)).isSome
            = (renderToks env rest).isSome := by
          cases renderToks env rest <;> rfl
        rw [hmap, ih]
        constructor
        · intro hr n' hn'
          rcases List.mem_cons.mp hn' with rfl | hmem
          · rw [h]
            rfl
          · exact hr n' hmem
        · intro hall n' hn'
          exact hall n' (List.mem_cons_of_mem _ hn')

theorem renderToks_noBraces (env : List (String × String)) :
    ∀ (toks : List Tok) (out : String),
      renderToks env toks = some out →
      (∀ c, Tok.lit c ∈ toks → c ≠ '{' ∧ c ≠ '}') →
      (∀ p ∈ env, noBraces p.2 = true) →
      noBraces out = true := by
  intro toks
  induction toks with
  | nil =>
    intro out hout _ _
    simp [renderToks] at hout
    subst hout
    rfl
  | cons t rest ih =>
    intro out hout hlit henv
    cases t with
    | lit c =>
      cases hr : renderToks env rest with
      | none => simp [renderToks, hr] at hout
      | some s =>
        simp [renderToks, hr] at hout
        subst hout
        rw [noBraces_append]
        have hc := hlit c (by simp)
        have h1 : noBraces (String.singleton c) = true := by
          simp [noBraces, String.singleton, hc.1, hc.2]
        rw [h1, Bool.true_and]
        exact ih s hr (fun c' hc' => hlit c' (List.mem_cons_of_mem _ hc')) henv
    | field n =>
      cases hl : env.lookup n with
      | none => simp [renderToks, hl] at hout
      | some v =>
        cases hr : renderToks env rest with
        | none => simp [renderToks, hl, hr] at hout
        | some s =>
          simp [renderToks, hl, hr] at hout
          subst hout
          rw [noBraces_append]
          have hv : noBraces v = true := henv (n, v) (lookup_mem hl)
          rw [hv, Bool.true_and]
          exact ih s hr (fun c' hc' => hlit c' (List.mem_cons_of_mem _ hc')) henv

/-- C7 amended: for a template with balanced braces, formatting succeeds
iff every referenced placeholder is among the seven supplied keys
(`member_name`, `amount`, `due_date`, `membership_type`, `overdue_days`,
`court_name`, `phone`); and a successful result contains no brace
character (hence no remaining placeholder token) provided the template
has no brace escapes and the substituted values are brace-free. -/
theorem format_message_placeholders (today : Int) (md : MemberData)
    (template : String) (toks : List Tok)
    (htok : tokenize template.data = some toks) :
    ((format_message today template md).isSome = true ↔
      ∀ n ∈ fieldNames toks, n ∈ supportedKeys) ∧
    (∀ out, format_message today template md = some out →
      (∀ c, Tok.lit c ∈ toks → c ≠ '{' ∧ c ≠ '}') →
      (∀ p ∈ formatEnv today md, noBraces p.2 = true) →
      noBraces out = true) := by
  have hred : format_message today template md =
      renderToks (formatEnv today md) toks := by
    simp [format_message, formatMap, htok]
  have hkeys : (formatEnv today md).map Prod.fst = supportedKeys := rfl
  constructor
  · rw [hred, renderToks_isSome]
    constructor
    · intro h n hn
      have := h n hn
      rw [lookup_isSome_iff, hkeys] at this
      exact this
    · intro h n hn
      rw [lookup_isSome_iff, hkeys]
      exact h n hn
  · intro out hout hlit henv
    rw [hred] at hout
    exact renderToks_noBraces _ toks out hout hlit henv

/-- C7 counterexample: the template `{court_name}` references a
placeholder outside the claim's five-name supported set, yet formatting
succeeds; and with a member whose name itself is `{x}`, a template using
only claimed placeholders formats to a string that still contains a
`{...}` token. -/
theorem format_message_claim_cex :
    (tokenize "{court_name}".data = some [Tok.field "court_name"] ∧
      "court_name" ∉ claimedKeys ∧
      format_message (toOrdinal 2024 1 20) "{court_name}" exampleData =
        some "KJ Badminton Academy") ∧
    (format_message (toOrdinal 2024 1 20) "{member_name}" braceData =
        some (String.mk ['{', 'x', '}']) ∧
      noBraces (String.mk ['{', 'x', '}']) = false) := by
  refine ⟨⟨by decide, by decide, by decide⟩, by decide, by decide⟩

/-- Witness for C7: the amended theorem applied to the concrete template
`{member_name}!`, whose formatting succeeds. -/
theorem format_message_placeholders_witness :
    (format_message (toOrdinal 2024 1 20) "{member_name}!" exampleData).isSome = true := by
  have h := (format_message_placeholders (toOrdinal 2024 1 20) exampleData
    "{member_name}!" [Tok.field "member_name", Tok.lit '!'] (by decide)).1
  exact h.mpr (by decide)

end KJAcademy
